import Mathlib

/-!
Verification of the political-media-bias analysis pipeline.

A shallow embedding of the core pipeline of the `politicalmediabias`
repository (`src/app/bias_detector.py`, `src/app/html_parser.py`,
`src/app/serial_processor.py`) together with proofs about the claims
of its specification.

Modelling conventions:
* Python strings are Lean `String`s; word lists are `List String`.
* Python whitespace handling (`str.split()`, `str.strip()`) is modelled
  over the ASCII whitespace characters (space, tab, newline, carriage
  return); exotic Unicode whitespace is outside the modelled fragment.
* Python `int`/`float` bias scores are modelled as `ℚ` (the pipeline
  never relies on float rounding); `json` numbers likewise.
* External library behaviour that the repository merely calls
  (`urllib` fetches, `BeautifulSoup.get_text`, Python exception
  message formatting) is abstracted as explicit function parameters.
* Fallible Python code (a raised exception) is modelled with `Option`:
  `none` means the corresponding call raised.
-/

namespace PMB

/-- Python whitespace test used by `str.split()` / `str.strip()`
(restricted to the ASCII whitespace characters). -/
def pyWsChar (c : Char) : Bool :=
  c = ' ' ∨ c = '\t' ∨ c = '\n' ∨ c = '\r'

/-- Split a character list at whitespace, keeping the (possibly empty)
chunks between separator characters; mirrors `String.split`. -/
def splitOnWs : List Char → List (List Char)
  | [] => [[]]
  | c :: cs =>
    if pyWsChar c then [] :: splitOnWs cs
    else
      match splitOnWs cs with
      | [] => [[c]]
      | w :: rest => (c :: w) :: rest

/-- Python `str.split()` (no separator argument) on a character list:
split on runs of whitespace and drop empty chunks. -/
def pyWords (l : List Char) : List (List Char) :=
  (splitOnWs l).filter (· ≠ [])

/-- Join words with single spaces; mirrors `" ".join(words)`. -/
def joinWS : List (List Char) → List Char
  | [] => []
  | [w] => w
  | w :: ws => w ++ ' ' :: joinWS ws

/-- Python list slicing `l[:k]` for an arbitrary (possibly negative)
integer bound `k`: a non-negative bound keeps the first `k` elements,
a negative bound keeps all but the last `|k|` elements. -/
def pySlice (l : List α) (k : ℤ) : List α :=
  if 0 ≤ k then l.take k.toNat else l.take (l.length - (-k).toNat)

/-- `truncate_words` from `src/app/bias_detector.py`:
`" ".join(text.split()[:max_words])`. -/
def truncate_words (text : String) (max_words : ℤ) : String :=
  String.mk (joinWS (pySlice (pyWords text.data) max_words))

/-- Python `str.strip()` (ASCII whitespace fragment). -/
def pyStrip (s : String) : String :=
  String.mk (((s.data.dropWhile pyWsChar).reverse.dropWhile pyWsChar).reverse)

/-- Python `str.rstrip()` (ASCII whitespace fragment). -/
def pyRstrip (s : String) : String :=
  String.mk ((s.data.reverse.dropWhile pyWsChar).reverse)

/-- ASCII character lowering (the pipeline's strings are ASCII, so this
models Python `str.lower()` on the inputs that matter). -/
def charLower (c : Char) : Char :=
  if 'A' ≤ c ∧ c ≤ 'Z' then Char.ofNat (c.toNat + 32) else c

/-- Python `str.lower()` (ASCII fragment). -/
def pyLower (s : String) : String :=
  String.mk (s.data.map charLower)

/-- JSON-style Python values flowing through the pipeline: the results of
`json.loads` and the entries of the response dictionaries. -/
inductive JVal where
  | null
  | bool (b : Bool)
  | num (q : ℚ)
  | str (s : String)
  | arr (xs : List JVal)
  | obj (fields : List (String × JVal))

/-- Python dictionaries with string keys, as insertion-ordered
association lists (keys are unique in every dictionary the pipeline
builds). -/
abbrev PyDict := List (String × JVal)

/-- Dictionary lookup: `d.get(k)`, distinguishing an absent key (`none`)
from a present `None` value (`some .null`). -/
def dget : PyDict → String → Option JVal
  | [], _ => none
  | (k, v) :: rest, key => if k = key then some v else dget rest key

/-- Dictionary update `d[k] = v`: replaces the value in place when the key
is present (Python dicts keep the original insertion position), appends
otherwise. -/
def dset : PyDict → String → JVal → PyDict
  | [], key, val => [(key, val)]
  | (k, v) :: rest, key, val =>
    if k = key then (k, val) :: rest else (k, v) :: dset rest key val

/-- Python `d.setdefault(k, v)`. -/
def dsetdefault (d : PyDict) (key : String) (val : JVal) : PyDict :=
  if (dget d key).isSome then d else d ++ [(key, val)]

/-- Python `d.get(k)` as seen by consumers that treat a missing key and a
stored `None` alike (both give `None`). -/
def pyGet (d : PyDict) (key : String) : JVal :=
  (dget d key).getD .null

/-- Python truthiness of the modelled values. -/
def pyTruthy : JVal → Bool
  | .null => false
  | .bool b => b
  | .num q => decide (q ≠ 0)
  | .str s => decide (s ≠ "")
  | .arr xs => !xs.isEmpty
  | .obj fs => !fs.isEmpty

/-- Python `a or b` on the modelled values. -/
def pyOr (a b : JVal) : JVal :=
  if pyTruthy a then a else b

/-- Python `x is None` on the modelled values. -/
def isNull : JVal → Bool
  | .null => true
  | _ => false

/-- Clamping to `[-1, 1]`: `max(-1.0, min(1.0, x))`, written with
conditionals mirroring Python's `min`/`max` on a total order. -/
def clamp (q : ℚ) : ℚ :=
  let m := if q < 1 then q else 1
  if -1 < m then m else -1

/-- Numeric value of a digit string. -/
def digitsVal (l : List Char) : ℕ :=
  l.foldl (fun a c => 10 * a + (c.toNat - '0'.toNat)) 0

/-- Core of the Python `float()` model: parse an optional sign, an integer
part, an optional fractional part and an optional exponent from an
already stripped and lowercased character list. -/
def pyFloatCore (l : List Char) : Option ℚ :=
  let sl : Bool × List Char :=
    match l with
    | '+' :: rest => (false, rest)
    | '-' :: rest => (true, rest)
    | _ => (false, l)
  let ip := sl.2.takeWhile Char.isDigit
  let l1 := sl.2.dropWhile Char.isDigit
  let fl : List Char × List Char :=
    match l1 with
    | '.' :: rest => (rest.takeWhile Char.isDigit, rest.dropWhile Char.isDigit)
    | _ => ([], l1)
  if ip = [] ∧ fl.1 = [] then none
  else
    let mantNat : ℕ := digitsVal ip * 10 ^ fl.1.length + digitsVal fl.1
    let mant : ℤ := if sl.1 then -(mantNat : ℤ) else (mantNat : ℤ)
    let mden : ℕ := 10 ^ fl.1.length
    match fl.2 with
    | [] => some (mkRat mant mden)
    | e :: rest =>
      if e = 'e' then
        let er : Bool × List Char :=
          match rest with
          | '+' :: r => (false, r)
          | '-' :: r => (true, r)
          | _ => (false, rest)
        let ed := er.2.takeWhile Char.isDigit
        if ed = [] ∨ er.2.dropWhile Char.isDigit ≠ [] then none
        else if er.1 then some (mkRat mant (mden * 10 ^ digitsVal ed))
        else some (mkRat (mant * ((10 ^ digitsVal ed : ℕ) : ℤ)) mden)
      else none

/-- Model of Python `float(s)` on decimal literals: surrounding whitespace
is ignored and the exponent marker is case-insensitive, as in Python.
`inf`/`nan` and `_` digit separators are outside the modelled fragment
(they never arise in the properties verified here). -/
def pyFloat? (s : String) : Option ℚ :=
  pyFloatCore ((pyLower (pyStrip s)).data)

/-- `parse_bias_score` from `src/app/bias_detector.py`. Python `float()`
is modelled by `pyFloat?`. Python booleans are `int` instances, so boolean
input takes the numeric branch, as in the source's `isinstance` test. -/
def parse_bias_score : JVal → Option ℚ
  | .null => none
  | .bool b => some (clamp (if b then 1 else 0))
  | .num q => some (clamp q)
  | .str s =>
    let normalized := pyLower (pyStrip s)
    if normalized = "left" ∨ normalized = "liberal" then some (-1)
    else if normalized = "right" ∨ normalized = "conservative" then some 1
    else if normalized = "neutral" ∨ normalized = "center" ∨
        normalized = "centre" ∨ normalized = "middle" then some 0
    else
      match pyFloat? normalized with
      | some q => some (clamp q)
      | none => none
  | .arr _ => none
  | .obj _ => none

/-- Modelled from the spec (claim C2), for comparison with
`parse_bias_score`: numeric input is clamped; string input is matched
case-insensitively (the claim mentions no whitespace stripping) against
the label sets; any other string is handed to float parsing as is;
null/missing input yields null. -/
def parse_bias_score_specC2 : JVal → Option ℚ
  | .null => none
  | .bool b => some (clamp (if b then 1 else 0))
  | .num q => some (clamp q)
  | .str s =>
    let ls := pyLower s
    if ls ∈ ["left", "liberal"] then some (-1)
    else if ls ∈ ["right", "conservative"] then some 1
    else if ls ∈ ["neutral", "center", "centre", "middle"] then some 0
    else (pyFloat? s).map clamp
  | .arr _ => none
  | .obj _ => none

/-- The amended claim C2: as claim C2, but labels are matched on the
whitespace-stripped lowercased value, and the float fallback parses that
normalized string. -/
def parse_bias_score_specC2_amended : JVal → Option ℚ
  | .null => none
  | .bool b => some (clamp (if b then 1 else 0))
  | .num q => some (clamp q)
  | .str s =>
    let ls := pyLower (pyStrip s)
    if ls ∈ ["left", "liberal"] then some (-1)
    else if ls ∈ ["right", "conservative"] then some 1
    else if ls ∈ ["neutral", "center", "centre", "middle"] then some 0
    else (pyFloat? ls).map clamp
  | .arr _ => none
  | .obj _ => none

/-- First half of `normalize_bias_response`: coerce the `bias` entry with
`parse_bias_score` and store the score only when coercion succeeded (on
failure the original entry is left untouched). -/
def coerceBias (result : PyDict) : PyDict :=
  match parse_bias_score (pyGet result "bias") with
  | some q => dset result "bias" (.num q)
  | none => result

/-- Second half of `normalize_bias_response`:
`rationale = normalized.get("reasoning") or normalized.get("rationale")`,
stored under `"reasoning"` when it is not `None`. -/
def resolveReasoning (d0 : PyDict) : PyDict :=
  let rationale := pyOr (pyGet d0 "reasoning") (pyGet d0 "rationale")
  if isNull rationale then d0 else dset d0 "reasoning" rationale

/-- `normalize_bias_response` from `src/app/bias_detector.py`. The
`st.write` debugging call has no bearing on the returned value and is not
modelled. -/
def normalize_bias_response (result : PyDict) : PyDict :=
  resolveReasoning (coerceBias result)

/-- JSON whitespace accepted between tokens by `json.loads`. -/
def jsonWs (c : Char) : Bool :=
  c = ' ' ∨ c = '\t' ∨ c = '\n' ∨ c = '\r'

/-- Skip JSON whitespace. -/
def skipWs (l : List Char) : List Char := l.dropWhile jsonWs

/-- The JSON escape table: each escape letter with the character it
stands for (`\uXXXX` escapes are outside the modelled fragment; they
never arise in the inputs evaluated here). -/
def escPairs : List (Char × Char) :=
  [('"', '"'), ('\\', '\\'), ('/', '/'), ('n', '\n'), ('t', '\t'),
   ('r', '\r'), ('b', Char.ofNat 8), ('f', Char.ofNat 12)]

/-- Decode one JSON string escape letter via the escape table. -/
def escChar (e : Char) : Option Char :=
  (escPairs.find? (fun p => p.1 = e)).map Prod.snd

/-- Parse the body of a JSON string literal (after the opening quote),
returning the decoded characters and the input after the closing quote. -/
def parseJStrAux : List Char → Option (List Char × List Char)
  | [] => none
  | '"' :: rest => some ([], rest)
  | '\\' :: e :: rest =>
    (escChar e).bind fun c => (parseJStrAux rest).map fun p => (c :: p.1, p.2)
  | c :: rest => (parseJStrAux rest).map fun p => (c :: p.1, p.2)

/-- Parse an optional JSON exponent suffix and finish the number. -/
def parseJExpTail (mant : ℤ) (mden : ℕ) (l : List Char) : Option (ℚ × List Char) :=
  let sr : Bool × List Char :=
    match l with
    | '+' :: r => (false, r)
    | '-' :: r => (true, r)
    | _ => (false, l)
  let ed := sr.2.takeWhile Char.isDigit
  if ed = [] then none
  else if sr.1 then some (mkRat mant (mden * 10 ^ digitsVal ed), sr.2.dropWhile Char.isDigit)
  else some (mkRat (mant * ((10 ^ digitsVal ed : ℕ) : ℤ)) mden, sr.2.dropWhile Char.isDigit)

/-- Dispatch on an optional `e`/`E` exponent marker. -/
def parseJNumExp (mant : ℤ) (mden : ℕ) : List Char → Option (ℚ × List Char)
  | 'e' :: rest => parseJExpTail mant mden rest
  | 'E' :: rest => parseJExpTail mant mden rest
  | rest => some (mkRat mant mden, rest)

/-- Parse a JSON number (JSON grammar: no leading zeros, no bare `.5` or
`5.`). -/
def parseJNum (l : List Char) : Option (ℚ × List Char) :=
  let sn : Bool × List Char :=
    match l with
    | '-' :: rest => (true, rest)
    | _ => (false, l)
  let ip := sn.2.takeWhile Char.isDigit
  let l1 := sn.2.dropWhile Char.isDigit
  if ip = [] then none
  else if 1 < ip.length ∧ ip.headD '0' = '0' then none
  else
    let fl : Option (List Char) × List Char :=
      match l1 with
      | '.' :: rest => (some (rest.takeWhile Char.isDigit), rest.dropWhile Char.isDigit)
      | _ => (none, l1)
    match fl.1 with
    | some [] => none
    | _ =>
      let fr := fl.1.getD []
      let mantNat := digitsVal ip * 10 ^ fr.length + digitsVal fr
      let mant : ℤ := if sn.1 then -(mantNat : ℤ) else (mantNat : ℤ)
      parseJNumExp mant (10 ^ fr.length) fl.2

/-- Turn the field list of a JSON object into a Python dict: later
duplicate keys overwrite earlier values in place. -/
def pyDictOfPairs (pairs : List (String × JVal)) : PyDict :=
  pairs.foldl (fun d p => dset d p.1 p.2) []

mutual

/-- Fuel-based recursive-descent parser for a JSON value, modelling
`json.loads`: returns the value and the unconsumed input. -/
def parseJVal : ℕ → List Char → Option (JVal × List Char)
  | 0, _ => none
  | fuel + 1, l =>
    match skipWs l with
    | 'n' :: 'u' :: 'l' :: 'l' :: rest => some (.null, rest)
    | 't' :: 'r' :: 'u' :: 'e' :: rest => some (.bool true, rest)
    | 'f' :: 'a' :: 'l' :: 's' :: 'e' :: rest => some (.bool false, rest)
    | '"' :: rest => (parseJStrAux rest).map fun p => (.str (String.mk p.1), p.2)
    | '[' :: rest =>
      match skipWs rest with
      | ']' :: r2 => some (.arr [], r2)
      | _ => (parseJItems fuel rest).map fun p => (.arr p.1, p.2)
    | '{' :: rest =>
      match skipWs rest with
      | '}' :: r2 => some (.obj [], r2)
      | _ => (parseJFields fuel rest).map fun p => (.obj (pyDictOfPairs p.1), p.2)
    | rest => (parseJNum rest).map fun p => (.num p.1, p.2)

/-- Parse the comma-separated items of a nonempty JSON array, up to and
including the closing bracket. -/
def parseJItems : ℕ → List Char → Option (List JVal × List Char)
  | 0, _ => none
  | fuel + 1, l =>
    (parseJVal fuel l).bind fun v =>
      match skipWs v.2 with
      | ',' :: r2 => (parseJItems fuel r2).map fun p => (v.1 :: p.1, p.2)
      | ']' :: r2 => some ([v.1], r2)
      | _ => none

/-- Parse the comma-separated fields of a nonempty JSON object, up to and
including the closing brace. -/
def parseJFields : ℕ → List Char → Option (List (String × JVal) × List Char)
  | 0, _ => none
  | fuel + 1, l =>
    match skipWs l with
    | '"' :: rest =>
      (parseJStrAux rest).bind fun k =>
        match skipWs k.2 with
        | ':' :: r2 =>
          (parseJVal fuel r2).bind fun v =>
            match skipWs v.2 with
            | ',' :: r4 => (parseJFields fuel r4).map fun p => ((String.mk k.1, v.1) :: p.1, p.2)
            | '}' :: r4 => some ([(String.mk k.1, v.1)], r4)
            | _ => none
        | _ => none
    | _ => none

end

/-- Model of Python `json.loads(s)`: parse one JSON value and require only
whitespace afterwards; `none` models a raised `JSONDecodeError`.
(Python's non-standard `NaN`/`Infinity` extensions are outside the
modelled fragment.) -/
def pyJsonLoads (s : String) : Option JVal :=
  match parseJVal (2 * s.data.length + 8) s.data with
  | some (v, rest) => if skipWs rest = [] then some v else none
  | none => none

/-- Index of the first occurrence of a character, `str.find`. -/
def firstIdx (c : Char) : List Char → Option ℕ
  | [] => none
  | x :: xs => if x = c then some 0 else (firstIdx c xs).map (· + 1)

/-- Index of the last occurrence of a character, `str.rfind`. -/
def lastIdx (c : Char) (l : List Char) : Option ℕ :=
  (firstIdx c l.reverse).map (fun i => l.length - 1 - i)

/-- `_extract_json_payload` from `src/app/bias_detector.py`. Python's
`json.loads` is modelled by `pyJsonLoads`; a raised `JSONDecodeError` is
`none`. The first, whole-string parse returns whatever value it yields,
object or not: the source returns `json.loads(output)` without checking
that the result is a dict. -/
def extract_json_payload (output : String) : Option JVal :=
  if output = "" then none
  else
    match pyJsonLoads output with
    | some v => some v
    | none =>
      match firstIdx '{' output.data, lastIdx '}' output.data with
      | some s, some e =>
        if e ≤ s then none
        else pyJsonLoads (String.mk ((output.data.take (e + 1)).drop s))
      | _, _ => none

/-- Modelled from the spec (claim C1), for comparison with
`extract_json_payload`: parse the entire output as JSON and return the
result only when it is an object; otherwise scan from the first brace to
the last. (The spec says "the entire trimmed output"; `json.loads`
ignores surrounding whitespace, so parsing the trimmed output and the raw
output are the same, and the brace scan's inclusive substring is
likewise unaffected by trimming.) -/
def extract_json_payload_specC1 (output : String) : Option JVal :=
  match pyJsonLoads output with
  | some (.obj fs) => some (.obj fs)
  | _ =>
    match firstIdx '{' output.data, lastIdx '}' output.data with
    | some s, some e =>
      if e ≤ s then none
      else pyJsonLoads (String.mk ((output.data.take (e + 1)).drop s))
    | _, _ => none

/-- The amended claim C1: as claim C1, except that a successful
whole-string parse returns the parsed value whether or not it is a JSON
object. -/
def extract_json_payload_specC1_amended (output : String) : Option JVal :=
  match pyJsonLoads output with
  | some v => some v
  | none =>
    match firstIdx '{' output.data, lastIdx '}' output.data with
    | some s, some e =>
      if e ≤ s then none
      else pyJsonLoads (String.mk ((output.data.take (e + 1)).drop s))
    | _, _ => none

/-- Mode of the `str.format` scanner: literal text, just after an opening
brace, just after a closing brace, or inside a replacement field
accumulating the (reversed) field name. -/
inductive FMode where
  | lit
  | openB
  | closeB
  | field (acc : List Char)

/-- State machine for Python `str.format` with the single keyword argument
`text`: literal text is copied, `{{`/`}}` are escaped braces, and a
`{...}` replacement field must be named exactly `text` (any other field
name raises `KeyError`/`IndexError`, modelled as `none`; conversion and
format specs are outside the modelled fragment). A lone `}` or an
unterminated `{` raises `ValueError`, also `none`. -/
def fmtSM (t : List Char) : List Char → FMode → Option (List Char)
  | [], .lit => some []
  | [], _ => none
  | c :: cs, .lit =>
    if c = '{' then fmtSM t cs .openB
    else if c = '}' then fmtSM t cs .closeB
    else (fmtSM t cs .lit).map (fun r => c :: r)
  | c :: cs, .openB =>
    if c = '{' then (fmtSM t cs .lit).map (fun r => '{' :: r)
    else if c = '}' then none
    else fmtSM t cs (.field [c])
  | c :: cs, .closeB =>
    if c = '}' then (fmtSM t cs .lit).map (fun r => '}' :: r)
    else none
  | c :: cs, .field acc =>
    if c = '}' then
      if acc.reverse = ['t', 'e', 'x', 't'] then (fmtSM t cs .lit).map (fun r => t ++ r)
      else none
    else if c = '{' then none
    else fmtSM t cs (.field (c :: acc))

/-- Is `p` an initial segment of `l`? -/
def isPfxB : List Char → List Char → Bool
  | [], _ => true
  | _ :: _, [] => false
  | a :: as, b :: bs => a = b && isPfxB as bs

/-- Does `p` occur contiguously inside `l`? (Python's `p in l`.) -/
def isInfB (p : List Char) : List Char → Bool
  | [] => p.isEmpty
  | c :: cs => isPfxB p (c :: cs) || isInfB p cs

/-- Python `pat in s` for strings. -/
def hasSubstr (pat s : String) : Bool := isInfB pat.data s.data

/-- `_render_custom_prompt` from `src/app/bias_detector.py`; `none`
models a raised formatting exception. -/
def _render_custom_prompt (prompt_template truncated_text : String) : Option String :=
  if hasSubstr "{text}" prompt_template then
    (fmtSM truncated_text.data prompt_template.data .lit).map String.mk
  else
    some (pyRstrip prompt_template ++ "\n\nText:\n\"\"\"\n" ++ truncated_text ++ "\n\"\"\"")

/-- Characters allowed in a URL scheme after the leading letter. -/
def schemeChar (c : Char) : Bool :=
  c.isAlphanum ∨ c = '+' ∨ c = '-' ∨ c = '.'

/-- Split off a URL scheme, modelled from `urllib.parse.urlparse`: the
part before the first `:`, when nonempty, letter-led and made of scheme
characters, lowercased. -/
def splitScheme (l : List Char) : Option (List Char × List Char) :=
  match firstIdx ':' l with
  | none => none
  | some i =>
    let sch := l.take i
    if sch ≠ [] ∧ (sch.headD ' ').isAlpha ∧ sch.all schemeChar then
      some (sch.map charLower, l.drop (i + 1))
    else none

/-- The netloc of what follows the scheme: the part after `//` up to the
next `/`, `?` or `#` (empty when the input does not start with `//`). -/
def netlocOf : List Char → List Char
  | '/' :: '/' :: r => r.takeWhile (fun c => ¬(c = '/' ∨ c = '?' ∨ c = '#'))
  | _ => []

/-- `_is_probable_url` from `src/app/html_parser.py`: an HTTP(S) scheme
and a nonempty netloc. -/
def _is_probable_url (s : String) : Bool :=
  match splitScheme s.data with
  | some p => (p.1 = "http".data ∨ p.1 = "https".data) ∧ netlocOf p.2 ≠ []
  | none => false

/-- The `source` tag of the extraction metadata. -/
inductive SourceKind where
  | text
  | html
  | url
deriving DecidableEq

/-- Metadata returned by `extract_text_from_input`. -/
structure ExtractMeta where
  source : SourceKind
  extracted : Bool
  url : Option String
deriving DecidableEq

/-- Python `c in s` for a single character. -/
def containsChar (s : String) (c : Char) : Bool := s.data.any (· = c)

/-- `extract_text_from_input` from `src/app/html_parser.py`. The two
external collaborators are abstracted: `fetch` models
`_fetch_url_content` (a successful HTTP fetch) and `get_text` models
`extract_main_text` (BeautifulSoup text extraction). -/
def extract_text_from_input (fetch get_text : String → String) (raw_input : String) :
    String × ExtractMeta :=
  let cleaned_input := pyStrip raw_input
  if cleaned_input = "" then ("", ⟨.text, false, none⟩)
  else if _is_probable_url cleaned_input then
    (get_text (fetch cleaned_input), ⟨.url, true, some cleaned_input⟩)
  else if containsChar cleaned_input '<' ∧ containsChar cleaned_input '>' then
    (get_text cleaned_input, ⟨.html, true, none⟩)
  else (cleaned_input, ⟨.text, false, none⟩)

/-- The default prompt template of `prepare_bias_input` (the Python
source's adjacent string literals, concatenated). -/
def defaultPrompt (truncated_text : String) : String :=
  "You are a media bias analyst. Score the political bias of the text on a scale from -1 (left) to 1 (right), with 0 as neutral. Respond ONLY with a JSON object using keys \"bias\", \"confidence\", and \"reasoning\". The reasoning should be 1-3 sentences.\n\nText:\n\"\"\"\n" ++ truncated_text ++ "\n\"\"\""

/-- Metadata returned by `prepare_bias_input` (the extraction metadata
updated with the truncation counts). -/
structure PrepMeta where
  source : SourceKind
  extracted : Bool
  url : Option String
  original_word_count : ℕ
  truncated_word_count : ℕ
  words_cut : ℤ
deriving DecidableEq

/-- Python truthiness of the optional `prompt_template` argument
(`if prompt_template:` is false for `None` and for the empty string). -/
def ptTruthy : Option String → Bool
  | none => false
  | some s => decide (s ≠ "")

/-- `prepare_bias_input` from `src/app/bias_detector.py`; `none` models a
raised exception (only possible in the custom-template branch). -/
def prepare_bias_input (fetch get_text : String → String) (raw_input : String)
    (max_words : ℤ) (prompt_template : Option String) : Option (String × PrepMeta) :=
  let er := extract_text_from_input fetch get_text raw_input
  let owc := (pyWords er.1.data).length
  let truncated_text := truncate_words er.1 max_words
  let twc := (pyWords truncated_text.data).length
  let d : ℤ := (owc : ℤ) - (twc : ℤ)
  let meta : PrepMeta := ⟨er.2.source, er.2.extracted, er.2.url, owc, twc,
    if 0 < d then d else 0⟩
  if ptTruthy prompt_template then
    (_render_custom_prompt (prompt_template.getD "") truncated_text).map fun p => (p, meta)
  else some (defaultPrompt truncated_text, meta)

/-- Outcome of the `subprocess.run(["ollama", "run", model_name], ...)`
call in `analyze_with_model`: normal completion with captured stdout, a
`TimeoutExpired`, or any other raised failure (with the exception's
message). -/
inductive RunOutcome where
  | completed (stdout : String)
  | timedOut
  | failed (msg : String)

/-- Outcome of the `_write_run_log` call: either it returns, or it raises
with the given exception message (e.g. an `OSError`). -/
inductive LogOutcome where
  | ok
  | raised (msg : String)

/-- `analyze_with_model` from `src/app/bias_detector.py`, modelled on the
outcome of the subprocess call and of the run-log write — the returned
dictionary depends only on those (the prompt and log path feed only the
child process and the log file). `typeErrMsg` models Python's message for
the `TypeError` raised by `dict(parsed)` when the recovered payload is
not a dict. The whole body sits in one `try`, so a raised log write is
caught by the generic `except Exception` handler. -/
def analyze_with_model (typeErrMsg : JVal → String)
    (outcome : RunOutcome) (logOut : LogOutcome) : PyDict :=
  match outcome with
  | .timedOut => [("bias", .str "timeout")]
  | .failed e => [("bias", .str ("error: " ++ e))]
  | .completed stdout =>
    let output := pyStrip stdout
    match logOut with
    | .raised e => [("bias", .str ("error: " ++ e))]
    | .ok =>
      match extract_json_payload output with
      | some (.obj p) => dsetdefault p "raw_output" (.str output)
      | some v => [("bias", .str ("error: " ++ typeErrMsg v))]
      | none => [("bias", .str "unknown"), ("raw_output", .str output)]

/-- The loop body of `analyze_text_folder` from
`src/app/serial_processor.py` for one `.txt` file with contents
`raw_text`: prepare the prompt from the raw file contents, run the model,
normalize, and build the JSON payload written to
`results/<stem>.json` (including the source's misspelled `reasoining`
key). `none` models an exception escaping the loop body. -/
def process_text_file (fetch get_text : String → String) (typeErrMsg : JVal → String)
    (raw_text : String) (max_words : ℤ) (prompt_template : Option String)
    (outcome : RunOutcome) (logOut : LogOutcome) : Option PyDict :=
  (prepare_bias_input fetch get_text raw_text max_words prompt_template).map fun _pm =>
    let result := analyze_with_model typeErrMsg outcome logOut
    let normalized := normalize_bias_response result
    [("text", .str raw_text),
     ("bias", pyGet normalized "bias"),
     ("confidence", pyGet normalized "confidence"),
     ("reasoning", pyGet normalized "reasoning"),
     ("reasoining", pyGet normalized "reasoning"),
     ("raw_output", pyGet normalized "raw_output")]


/-- Decidable form of the bias-field invariant claimed in C5: the
normalized `bias` entry is absent, null, or a numeric value in [-1,1]. -/
def biasFieldOKb (d : PyDict) : Bool :=
  match dget d "bias" with
  | none => true
  | some .null => true
  | some (.num q) => decide (-1 ≤ q ∧ q ≤ 1)
  | some _ => false


/-- Bool test that a character list contains no brace characters. -/
def braceFreeB (l : List Char) : Bool :=
  l.all (fun c => ¬(c = '{' ∨ c = '}'))


section WordLemmas

/-- Every chunk produced by `splitOnWs` is whitespace-free. -/
theorem splitOnWs_no_ws (l : List Char) :
    ∀ w ∈ splitOnWs l, ∀ c ∈ w, pyWsChar c = false := by
  induction l with
  | nil =>
    intro w hw c hc
    simp [splitOnWs] at hw
    subst hw
    simp at hc
  | cons x xs ih =>
    intro w hw c hc
    by_cases hx : pyWsChar x
    · simp [splitOnWs, hx] at hw
      rcases hw with h | h
      · subst h; simp at hc
      · exact ih w h c hc
    · simp [splitOnWs, hx] at hw
      rcases hsplit : splitOnWs xs with - | ⟨w₀, rest⟩
      · rw [hsplit] at hw
        simp at hw
        subst hw
        simp at hc
        subst hc
        simpa using hx
      · rw [hsplit] at hw
        simp at hw
        rcases hw with h | h
        · subst h
          simp at hc
          rcases hc with h | h
          · subst h; simpa using hx
          · exact ih w₀ (by rw [hsplit]; simp) c h
        · exact ih w (by rw [hsplit]; simp; right; exact h) c hc

/-- Every word produced by `pyWords` is nonempty and whitespace-free. -/
theorem pyWords_wf (l : List Char) :
    ∀ w ∈ pyWords l, w ≠ [] ∧ ∀ c ∈ w, pyWsChar c = false := by
  intro w hw
  unfold pyWords at hw
  rw [List.mem_filter] at hw
  refine ⟨by simpa using hw.2, ?_⟩
  exact splitOnWs_no_ws l w hw.1

/-- `splitOnWs` always produces at least one chunk. -/
theorem splitOnWs_ne_nil (l : List Char) : splitOnWs l ≠ [] := by
  cases l with
  | nil => simp [splitOnWs]
  | cons c cs =>
    by_cases hc : pyWsChar c
    · simp [splitOnWs, hc]
    · simp only [splitOnWs, hc]
      rcases h : splitOnWs cs with - | ⟨w, rest⟩ <;> simp

/-- Prepending a whitespace-free word extends the first chunk of a split. -/
theorem splitOnWs_append_word (w t w₀ : List Char) (rest : List (List Char))
    (hw : ∀ c ∈ w, pyWsChar c = false)
    (ht : splitOnWs t = w₀ :: rest) :
    splitOnWs (w ++ t) = (w ++ w₀) :: rest := by
  induction w with
  | nil => simpa using ht
  | cons c cs ih =>
    have hc : pyWsChar c = false := hw c (by simp)
    have hcs : ∀ c' ∈ cs, pyWsChar c' = false := fun c' h => hw c' (by simp [h])
    simp only [List.cons_append, splitOnWs, hc, Bool.false_eq_true, if_false, List.append_eq]
    rw [ih hcs]

/-- Splitting a single whitespace-free word gives back that word. -/
theorem splitOnWs_word (w : List Char) (hw : ∀ c ∈ w, pyWsChar c = false) :
    splitOnWs w = [w] := by
  have h := splitOnWs_append_word w [] [] [] hw rfl
  simpa using h

/-- Round trip: splitting a single-space join of nonempty, whitespace-free
words recovers exactly those words. -/
theorem pyWords_joinWS (ws : List (List Char))
    (h : ∀ w ∈ ws, w ≠ [] ∧ ∀ c ∈ w, pyWsChar c = false) :
    pyWords (joinWS ws) = ws := by
  induction ws with
  | nil => simp [joinWS, pyWords, splitOnWs]
  | cons w ws ih =>
    rcases ws with - | ⟨w', ws'⟩
    · have hw := h w (by simp)
      simp only [joinWS]
      unfold pyWords
      rw [splitOnWs_word w hw.2]
      simp [hw.1]
    · have hw := h w (by simp)
      have hrest : ∀ u ∈ w' :: ws', u ≠ [] ∧ ∀ c ∈ u, pyWsChar c = false :=
        fun u hu => h u (List.mem_cons_of_mem _ hu)
      have hIH := ih hrest
      simp only [joinWS]
      unfold pyWords
      have hsp : splitOnWs (' ' :: joinWS (w' :: ws')) =
          [] :: splitOnWs (joinWS (w' :: ws')) := by
        simp [splitOnWs, pyWsChar]
      rcases hj : splitOnWs (joinWS (w' :: ws')) with - | ⟨u, us⟩
      · exact absurd hj (splitOnWs_ne_nil _)
      · have hpre := splitOnWs_append_word w (' ' :: joinWS (w' :: ws')) [] (u :: us)
          hw.2 (by rw [hsp, hj])
        rw [hpre, List.append_nil]
        unfold pyWords at hIH
        rw [hj] at hIH
        rw [List.filter_cons_of_pos, hIH]
        simpa using hw.1

end WordLemmas

section DictLemmas

theorem dget_dset_self (d : PyDict) (k : String) (v : JVal) :
    dget (dset d k v) k = some v := by
  induction d with
  | nil => simp [dget, dset]
  | cons p rest ih =>
    obtain ⟨k', v'⟩ := p
    by_cases h : k' = k
    · simp [dget, dset, h]
    · simp [dget, dset, h, ih]

theorem dget_dset_ne (d : PyDict) (k k' : String) (v : JVal) (h : k' ≠ k) :
    dget (dset d k v) k' = dget d k' := by
  induction d with
  | nil => simp [dget, dset, Ne.symm h]
  | cons p rest ih =>
    obtain ⟨k₀, v₀⟩ := p
    by_cases h₀ : k₀ = k
    · subst h₀
      simp [dget, dset, Ne.symm h]
    · by_cases h₁ : k₀ = k'
      · simp [dget, dset, h₀, h₁, h]
      · simp [dget, dset, h₀, h₁, ih]

end DictLemmas

/-- Every value `parse_bias_score` returns lies in `[-1, 1]`. -/
theorem parse_bias_score_bounds (v : JVal) (q : ℚ)
    (h : parse_bias_score v = some q) : -1 ≤ q ∧ q ≤ 1 := by
  have hclamp : ∀ x : ℚ, -1 ≤ clamp x ∧ clamp x ≤ 1 := by
    intro x
    unfold clamp
    dsimp only
    split_ifs <;> constructor <;> linarith
  cases v with
  | null => simp [parse_bias_score] at h
  | bool b =>
    simp only [parse_bias_score, Option.some.injEq] at h
    rw [← h]
    exact hclamp _
  | num x =>
    simp only [parse_bias_score, Option.some.injEq] at h
    rw [← h]
    exact hclamp _
  | str s =>
    simp only [parse_bias_score] at h
    split_ifs at h with h1 h2 h3
    · injection h with h'
      rw [← h']
      norm_num
    · injection h with h'
      rw [← h']
      norm_num
    · injection h with h'
      rw [← h']
      norm_num
    · cases hpf : pyFloat? (pyLower (pyStrip s)) with
      | none => rw [hpf] at h; cases h
      | some x =>
        rw [hpf] at h
        injection h with h'
        rw [← h']
        exact hclamp _
  | arr xs => simp [parse_bias_score] at h
  | obj fs => simp [parse_bias_score] at h

example : pyJsonLoads "\x7b\"bias\": 0.5\x7d" = some (.obj [("bias", .num (mkRat 1 2))]) := by rfl
example : pyJsonLoads "5" = some (.num 5) := by rfl
example : pyJsonLoads "no braces here" = none := by rfl
example :
    extract_json_payload "blah \x7b\"bias\": \"left\", \"confidence\": 0.8\x7d tail" =
      some (.obj [("bias", .str "left"), ("confidence", .num (mkRat 4 5))]) := by rfl
example : extract_json_payload "no braces here" = none := by rfl
example : extract_json_payload "5" = some (.num 5) := by rfl
example : extract_json_payload_specC1 "5" = none := by rfl

example : pyFloat? "0.5" = some (mkRat 1 2) := by decide

example :
    _render_custom_prompt "Analyze this:" "hello world" =
      some "Analyze this:\n\nText:\n\"\"\"\nhello world\n\"\"\"" := by rfl
example : _render_custom_prompt "Score {text} now" "X" = some "Score X now" := by rfl
example : _render_custom_prompt "\x7b\x7btext\x7d\x7d" "X" = some "{text}" := by rfl
example : _render_custom_prompt "{text} and {other}" "X" = none := by rfl
example : _is_probable_url "http://example.com/page" = true := by rfl
example : _is_probable_url "not a url" = false := by rfl
example : truncate_words "a b c" (-1) = "a b" := by rfl

/-- Claim C10: for every raw input and word bound, calling
`prepare_bias_input` with the empty string as the prompt template
produces exactly the same prompt and metadata as calling it with no
template at all — Python's `if prompt_template:` is false both for
`None` and for `""`, so the default template is used in both cases. -/
theorem c10_empty_template_is_absent (fetch get_text : String → String)
    (raw_input : String) (max_words : ℤ) :
    prepare_bias_input fetch get_text raw_input max_words (some "") =
      prepare_bias_input fetch get_text raw_input max_words none := rfl

/-- Claim C1 is false on the code at the raw output `"5"`: the
whole-string parse succeeds with a non-object, which
`_extract_json_payload` returns as is, while the claimed algorithm
(modelled by `extract_json_payload_specC1`) accepts only an object from
the first stage and therefore falls through to the brace scan, where no
`{` exists, returning null. -/
theorem c1_counterexample :
    extract_json_payload "5" = some (.num 5) ∧
      extract_json_payload_specC1 "5" = none := ⟨rfl, rfl⟩

/-- Claim C1 as amended: the response parser follows the claimed
algorithm except that a successful whole-string parse returns the parsed
value whether or not it is a JSON object. -/
theorem c1_amended_extraction_algorithm (output : String) :
    extract_json_payload output = extract_json_payload_specC1_amended output := by
  by_cases h : output = ""
  · subst h
    rfl
  · unfold extract_json_payload extract_json_payload_specC1_amended
    rw [if_neg h]

/-- Claim C2 is false on the code at the input `"left "`:
`parse_bias_score` strips whitespace before matching labels and returns
-1.0, while the claim's case-insensitive label match (modelled by
`parse_bias_score_specC2`) does not recognize `"left "` and its float
fallback fails, yielding null. -/
theorem c2_counterexample :
    parse_bias_score (.str "left ") = some (-1) ∧
      parse_bias_score_specC2 (.str "left ") = none := ⟨rfl, rfl⟩

/-- Claim C2 as amended: the coercion behaves as claimed with label
matching (and the float fallback) applied to the whitespace-stripped,
lowercased value. -/
theorem c2_amended_parse_bias_score (v : JVal) :
    parse_bias_score v = parse_bias_score_specC2_amended v := by
  cases v with
  | str s =>
    simp only [parse_bias_score, parse_bias_score_specC2_amended, List.mem_cons,
      List.mem_singleton, List.not_mem_nil, or_false]
    split_ifs <;> first
      | rfl
      | (cases pyFloat? (pyLower (pyStrip s)) <;> rfl)
  | null => rfl
  | bool b => rfl
  | num q => rfl
  | arr xs => rfl
  | obj fs => rfl

/-- Claim C3 is false on the code when the subprocess completes with
unparseable output but the run-log write raises: the generic exception
handler catches the log error and returns an `error:` sentinel instead of
the claimed `{bias: "unknown", raw_output: ...}` result. -/
theorem c3_counterexample :
    analyze_with_model (fun _ => "") (.completed "no json here") (.raised "boom") =
        [("bias", .str "error: boom")] ∧
      analyze_with_model (fun _ => "") (.completed "no json here") (.raised "boom") ≠
        [("bias", .str "unknown"), ("raw_output", .str "no json here")] := by
  refine ⟨rfl, ?_⟩
  have h1 : analyze_with_model (fun _ => "") (.completed "no json here") (.raised "boom") =
      [("bias", .str "error: boom")] := rfl
  rw [h1]
  intro h
  have hlen := congrArg List.length h
  simp at hlen

/-- Claim C3 as amended: `analyze_with_model` never raises — every
outcome is returned as data. On timeout the result is the `"timeout"`
sentinel; on an invocation failure it is `"error: <cause>"`; and when the
subprocess completes, no JSON payload is recovered, and the run-log write
succeeds, the result is `{bias: "unknown", raw_output: <raw text>}`. -/
theorem c3_amended_outcome_taxonomy (typeErrMsg : JVal → String) (e stdout : String)
    (lg : LogOutcome)
    (hparse : extract_json_payload (pyStrip stdout) = none) :
    analyze_with_model typeErrMsg .timedOut lg = [("bias", .str "timeout")] ∧
      analyze_with_model typeErrMsg (.failed e) lg = [("bias", .str ("error: " ++ e))] ∧
      analyze_with_model typeErrMsg (.completed stdout) .ok =
        [("bias", .str "unknown"), ("raw_output", .str (pyStrip stdout))] := by
  refine ⟨rfl, rfl, ?_⟩
  simp only [analyze_with_model, hparse]

/-- Witness for the amended claim C3 at concrete inputs. -/
theorem c3_witness :
    analyze_with_model (fun _ => "") .timedOut .ok = [("bias", .str "timeout")] ∧
      analyze_with_model (fun _ => "") (.failed "x") .ok = [("bias", .str ("error: " ++ "x"))] ∧
      analyze_with_model (fun _ => "") (.completed "plain text") .ok =
        [("bias", .str "unknown"), ("raw_output", .str (pyStrip "plain text"))] :=
  c3_amended_outcome_taxonomy (fun _ => "") "x" "plain text" .ok rfl

/-- `pySlice` always yields an initial segment, so its elements come from
the original list. -/
theorem pySlice_subset (l : List α) (k : ℤ) : pySlice l k ⊆ l := by
  unfold pySlice
  split_ifs <;> exact List.take_subset _ _

/-- Splitting a truncation result recovers exactly the sliced word list:
the slice of `pyWords` output consists of nonempty whitespace-free words,
and the single-space join of such words splits back to them. -/
theorem pyWords_truncate_words (text : String) (mw : ℤ) :
    pyWords (truncate_words text mw).data = pySlice (pyWords text.data) mw := by
  unfold truncate_words
  show pyWords (joinWS (pySlice (pyWords text.data) mw)) = pySlice (pyWords text.data) mw
  apply pyWords_joinWS
  intro w hw
  exact pyWords_wf text.data w (pySlice_subset _ _ hw)

/-- On integers, the source's `max(0, d)` written with a conditional. -/
theorem ite_pos_eq_max (d : ℤ) : (if 0 < d then d else 0) = max 0 d := by
  rw [max_def]
  split_ifs <;> omega

/-- The metadata `prepare_bias_input` returns is the extraction metadata
extended with the truncation counts (independently of which template
branch produced the prompt). -/
theorem prepare_bias_input_meta (fetch get_text : String → String) (raw : String)
    (mw : ℤ) (pt : Option String) (p : String) (m : PrepMeta)
    (hm : prepare_bias_input fetch get_text raw mw pt = some (p, m)) :
    m = ⟨(extract_text_from_input fetch get_text raw).2.source,
      (extract_text_from_input fetch get_text raw).2.extracted,
      (extract_text_from_input fetch get_text raw).2.url,
      (pyWords (extract_text_from_input fetch get_text raw).1.data).length,
      (pyWords (truncate_words (extract_text_from_input fetch get_text raw).1 mw).data).length,
      if 0 < ((pyWords (extract_text_from_input fetch get_text raw).1.data).length : ℤ) -
          ((pyWords (truncate_words (extract_text_from_input fetch get_text raw).1 mw).data).length : ℤ)
        then ((pyWords (extract_text_from_input fetch get_text raw).1.data).length : ℤ) -
          ((pyWords (truncate_words (extract_text_from_input fetch get_text raw).1 mw).data).length : ℤ)
        else 0⟩ := by
  unfold prepare_bias_input at hm
  dsimp only at hm
  by_cases hpt : ptTruthy pt
  · rw [if_pos hpt] at hm
    cases hr : _render_custom_prompt (pt.getD "") (truncate_words (extract_text_from_input fetch get_text raw).1 mw) with
    | none => rw [hr] at hm; exact absurd hm (by simp)
    | some pr =>
      rw [hr] at hm
      simp only [Option.map_some', Option.some.injEq, Prod.mk.injEq] at hm
      exact hm.2.symm
  · rw [if_neg hpt] at hm
    simp only [Option.some.injEq, Prod.mk.injEq] at hm
    exact hm.2.symm

/-- Claim C4 is false as stated: for the negative bound -1, Python's
`words[:max_words]` slicing keeps all but the last word, so the output is
not empty even though `max_words ≤ 0`. -/
theorem c4_counterexample :
    truncate_words "a b c" (-1) = "a b" ∧ ("a b" : String) ≠ "" := ⟨rfl, by decide⟩

/-- Claim C4 as amended: truncation splits the text on whitespace, keeps
the first `max_words` tokens and rejoins them with single spaces for
every non-negative `max_words`; `max_words = 0` yields the empty string
(negative bounds instead drop the last `|max_words|` tokens); and the
metadata satisfies `words_cut = max(0, original - truncated)` always and
`truncated_word_count ≤ max_words` whenever `max_words ≥ 0`. -/
theorem c4_amended_truncation (text : String) (fetch get_text : String → String)
    (raw : String) (mw : ℤ) (pt : Option String) (p : String) (m : PrepMeta)
    (hm : prepare_bias_input fetch get_text raw mw pt = some (p, m)) :
    (0 ≤ mw →
      truncate_words text mw = String.mk (joinWS ((pyWords text.data).take mw.toNat))) ∧
      truncate_words text 0 = "" ∧
      m.words_cut = max 0 ((m.original_word_count : ℤ) - (m.truncated_word_count : ℤ)) ∧
      (0 ≤ mw → (m.truncated_word_count : ℤ) ≤ mw) := by
  have hmeta := prepare_bias_input_meta fetch get_text raw mw pt p m hm
  refine ⟨?_, rfl, ?_, ?_⟩
  · intro h
    unfold truncate_words pySlice
    rw [if_pos h]
  · rw [hmeta]
    exact ite_pos_eq_max _
  · intro h
    rw [hmeta]
    dsimp only
    rw [pyWords_truncate_words]
    unfold pySlice
    rw [if_pos h]
    have hlen := List.length_take_le mw.toNat (pyWords (extract_text_from_input fetch get_text raw).1.data)
    omega

/-- Witness for the amended claim C4 at concrete inputs. -/
theorem c4_witness :
    (truncate_words "a b c" 2 =
        String.mk (joinWS ((pyWords "a b c".data).take ((2 : ℤ)).toNat))) ∧
      truncate_words "a b c" 0 = "" ∧
      ((1 : ℤ) = max 0 ((3 : ℤ) - (2 : ℤ))) ∧ ((2 : ℤ) ≤ 2) := by
  have h := c4_amended_truncation "a b c" (fun _ => "") (fun _ => "") "a b c" 2 none
    (defaultPrompt "a b") ⟨.text, false, none, 3, 2, 1⟩ rfl
  exact ⟨h.1 (by norm_num), h.2.1, h.2.2.1, h.2.2.2 (by norm_num)⟩


/-- A truthy value is not `None`. -/
theorem pyTruthy_not_null (v : JVal) (h : pyTruthy v = true) : isNull v = false := by
  cases v <;> simp_all [pyTruthy, isNull]

/-- Coercing the bias entry leaves every other key unchanged. -/
theorem coerceBias_get_other (d : PyDict) (k : String) (h : k ≠ "bias") :
    dget (coerceBias d) k = dget d k := by
  unfold coerceBias
  cases parse_bias_score (pyGet d "bias")
  · rfl
  · exact dget_dset_ne _ _ _ _ h

/-- `pyGet` version of `coerceBias_get_other`. -/
theorem coerceBias_pyGet_other (d : PyDict) (k : String) (h : k ≠ "bias") :
    pyGet (coerceBias d) k = pyGet d k := by
  unfold pyGet
  rw [coerceBias_get_other d k h]

/-- Resolving the reasoning field leaves the `bias` entry unchanged. -/
theorem resolveReasoning_get_bias (d0 : PyDict) :
    dget (resolveReasoning d0) "bias" = dget d0 "bias" := by
  unfold resolveReasoning
  dsimp only
  split_ifs
  · rfl
  · exact dget_dset_ne _ _ _ _ (by decide)

/-- Resolving the reasoning field leaves the `rationale` entry
unchanged. -/
theorem resolveReasoning_get_rationale (d0 : PyDict) :
    dget (resolveReasoning d0) "rationale" = dget d0 "rationale" := by
  unfold resolveReasoning
  dsimp only
  split_ifs
  · rfl
  · exact dget_dset_ne _ _ _ _ (by decide)

/-- With a truthy `reasoning` value, the resolved reasoning is that
value. -/
theorem resolveReasoning_truthy (d0 : PyDict)
    (h : pyTruthy (pyGet d0 "reasoning") = true) :
    dget (resolveReasoning d0) "reasoning" = some (pyGet d0 "reasoning") := by
  have hnn := pyTruthy_not_null _ h
  simp only [resolveReasoning, pyOr, h, if_true, hnn, Bool.false_eq_true, if_false]
  exact dget_dset_self _ _ _

/-- With a falsy `reasoning` value and a non-null `rationale`, the
resolved reasoning is the `rationale` value. -/
theorem resolveReasoning_fallback (d0 : PyDict)
    (h : pyTruthy (pyGet d0 "reasoning") = false)
    (h2 : isNull (pyGet d0 "rationale") = false) :
    dget (resolveReasoning d0) "reasoning" = some (pyGet d0 "rationale") := by
  simp only [resolveReasoning, pyOr, h, Bool.false_eq_true, if_false, h2]
  exact dget_dset_self _ _ _

/-- With a falsy `reasoning` value and a null `rationale`, nothing is
stored. -/
theorem resolveReasoning_keep (d0 : PyDict)
    (h : pyTruthy (pyGet d0 "reasoning") = false)
    (h2 : isNull (pyGet d0 "rationale") = true) :
    dget (resolveReasoning d0) "reasoning" = dget d0 "reasoning" := by
  simp only [resolveReasoning, pyOr, h, Bool.false_eq_true, if_false, h2, if_true]

/-- Claim C5 is false on the code: a bias value that fails coercion is
left in the normalized result unchanged, so the normalized `bias` field
can be a non-null, non-numeric string (here the string `"gibberish"`),
violating the claimed null-or-clamped-float invariant. -/
theorem c5_counterexample :
    normalize_bias_response [("bias", .str "gibberish")] = [("bias", .str "gibberish")] ∧
      biasFieldOKb (normalize_bias_response [("bias", .str "gibberish")]) = false :=
  ⟨rfl, rfl⟩

/-- Claim C5 as amended: when the bias entry coerces to a number, the
normalized result stores exactly the clamped float (which lies in
[-1,1]); when coercion fails, the original entry is preserved unchanged
(so the claimed invariant holds only for coercible input); and the
coercion itself yields null on every string that is neither a recognized
label (after stripping and lowercasing) nor float-parseable. -/
theorem c5_amended_bias_field (d : PyDict) :
    (∀ q : ℚ, parse_bias_score (pyGet d "bias") = some q →
        dget (normalize_bias_response d) "bias" = some (.num q) ∧ -1 ≤ q ∧ q ≤ 1) ∧
      (parse_bias_score (pyGet d "bias") = none →
        dget (normalize_bias_response d) "bias" = dget d "bias") ∧
      (∀ s : String,
        pyLower (pyStrip s) ∉
          (["left", "liberal", "right", "conservative", "neutral", "center",
            "centre", "middle"] : List String) →
        pyFloat? (pyLower (pyStrip s)) = none → parse_bias_score (.str s) = none) := by
  refine ⟨?_, ?_, ?_⟩
  · intro q hq
    have hb : dget (coerceBias d) "bias" = some (.num q) := by
      unfold coerceBias
      rw [hq]
      exact dget_dset_self _ _ _
    refine ⟨?_, parse_bias_score_bounds _ _ hq⟩
    unfold normalize_bias_response
    rw [resolveReasoning_get_bias, hb]
  · intro hq
    have hb : dget (coerceBias d) "bias" = dget d "bias" := by
      unfold coerceBias
      rw [hq]
    unfold normalize_bias_response
    rw [resolveReasoning_get_bias, hb]
  · intro s hmem hpf
    simp only [List.mem_cons, List.not_mem_nil, or_false, not_or] at hmem
    obtain ⟨h1, h2, h3, h4, h5, h6, h7, h8⟩ := hmem
    simp [parse_bias_score, h1, h2, h3, h4, h5, h6, h7, h8, hpf]

/-- Witness for the amended claim C5 at concrete inputs. -/
theorem c5_witness :
    (dget (normalize_bias_response [("bias", .num 5)]) "bias" = some (.num 1) ∧
        (-1 : ℚ) ≤ 1 ∧ (1 : ℚ) ≤ 1) ∧
      parse_bias_score (.str "gibberish") = none := by
  refine ⟨(c5_amended_bias_field [("bias", .num 5)]).1 1 rfl, ?_⟩
  exact (c5_amended_bias_field [("bias", .num 5)]).2.2 "gibberish" (by decide) rfl

/-- Claim C6 is false on the code: with a present but falsy `reasoning`
value (the empty string) and a legacy `rationale` value, Python's
`get("reasoning") or get("rationale")` falls back to the rationale even
though the `reasoning` key is present — the claim allows the fallback
only when the `reasoning` key is absent, which would have kept `""`. -/
theorem c6_counterexample :
    dget (normalize_bias_response [("reasoning", .str ""), ("rationale", .str "why")])
        "reasoning" = some (.str "why") ∧
      ("why" : String) ≠ "" := ⟨rfl, by decide⟩

/-- Claim C6 as amended: the resolution prefers the `reasoning` value
whenever it is truthy; it falls back to the legacy `rationale` value
whenever the `reasoning` value is absent or falsy (and the rationale is
not null); when both are unusable nothing is stored; the resolved value
is stored under `"reasoning"`; and the original `rationale` entry is
always preserved in the output. -/
theorem c6_amended_reasoning_resolution (d : PyDict) :
    (pyTruthy (pyGet d "reasoning") = true →
        dget (normalize_bias_response d) "reasoning" = some (pyGet d "reasoning")) ∧
      (pyTruthy (pyGet d "reasoning") = false → isNull (pyGet d "rationale") = false →
        dget (normalize_bias_response d) "reasoning" = some (pyGet d "rationale")) ∧
      (pyTruthy (pyGet d "reasoning") = false → isNull (pyGet d "rationale") = true →
        dget (normalize_bias_response d) "reasoning" = dget d "reasoning") ∧
      dget (normalize_bias_response d) "rationale" = dget d "rationale" := by
  have hre : pyGet (coerceBias d) "reasoning" = pyGet d "reasoning" :=
    coerceBias_pyGet_other d _ (by decide)
  have hra : pyGet (coerceBias d) "rationale" = pyGet d "rationale" :=
    coerceBias_pyGet_other d _ (by decide)
  refine ⟨?_, ?_, ?_, ?_⟩
  · intro h
    unfold normalize_bias_response
    rw [resolveReasoning_truthy _ (by rw [hre]; exact h), hre]
  · intro h h2
    unfold normalize_bias_response
    rw [resolveReasoning_fallback _ (by rw [hre]; exact h) (by rw [hra]; exact h2), hra]
  · intro h h2
    unfold normalize_bias_response
    rw [resolveReasoning_keep _ (by rw [hre]; exact h) (by rw [hra]; exact h2)]
    exact coerceBias_get_other d _ (by decide)
  · unfold normalize_bias_response
    rw [resolveReasoning_get_rationale]
    exact coerceBias_get_other d _ (by decide)

/-- Witness for the amended claim C6 at concrete inputs. -/
theorem c6_witness :
    dget (normalize_bias_response [("reasoning", .str "r1"), ("rationale", .str "r2")])
        "reasoning" =
        some (pyGet [("reasoning", JVal.str "r1"), ("rationale", JVal.str "r2")] "reasoning") ∧
      dget (normalize_bias_response [("rationale", .str "r2")]) "reasoning" =
        some (pyGet [("rationale", JVal.str "r2")] "rationale") :=
  ⟨(c6_amended_reasoning_resolution _).1 rfl,
    (c6_amended_reasoning_resolution _).2.1 rfl rfl⟩


/-- A list is an initial segment of itself followed by anything. -/
theorem isPfxB_self_append (p r : List Char) : isPfxB p (p ++ r) = true := by
  induction p with
  | nil => rfl
  | cons c cs ih => simp [isPfxB, ih]

/-- An occurrence in the right part survives prepending on the left. -/
theorem isInfB_append_left (p x y : List Char) (h : isInfB p y = true) :
    isInfB p (x ++ y) = true := by
  induction x with
  | nil => simpa using h
  | cons c cs ih => simp [isInfB, ih]

/-- A list occurs in itself followed by anything. -/
theorem isInfB_at (p b : List Char) : isInfB p (p ++ b) = true := by
  cases p with
  | nil => cases b <;> simp [isInfB, isPfxB, List.isEmpty]
  | cons c cs =>
    simp only [isInfB, List.cons_append, Bool.or_eq_true]
    exact Or.inl (isPfxB_self_append (c :: cs) b)

/-- Formatting copies a brace-free chunk of literal text verbatim. -/
theorem fmtSM_append_lit (t a rest : List Char) (ha : braceFreeB a = true) :
    fmtSM t (a ++ rest) .lit = (fmtSM t rest .lit).map (fun r => a ++ r) := by
  induction a with
  | nil =>
    simp only [List.nil_append, List.nil_append]
    cases fmtSM t rest FMode.lit <;> rfl
  | cons c cs ih =>
    rw [show braceFreeB (c :: cs) = (decide ¬(c = '{' ∨ c = '}') && braceFreeB cs) from rfl,
      Bool.and_eq_true] at ha
    obtain ⟨hc, hcs'⟩ := ha
    rw [decide_eq_true_eq, not_or] at hc
    obtain ⟨hc1, hc2⟩ := hc
    rw [List.cons_append]
    rw [show fmtSM t (c :: (cs ++ rest)) FMode.lit =
        (fmtSM t (cs ++ rest) FMode.lit).map (fun r => c :: r) from by
      simp [fmtSM, hc1, hc2]]
    rw [ih hcs']
    cases fmtSM t rest FMode.lit <;> rfl

/-- Formatting a `{text}` replacement field substitutes the argument. -/
theorem fmtSM_placeholder (t rest : List Char) :
    fmtSM t ('{' :: 't' :: 'e' :: 'x' :: 't' :: '}' :: rest) .lit =
      (fmtSM t rest .lit).map (fun r => t ++ r) := by
  simp [fmtSM]

/-- A brace-free template tail formats to itself. -/
theorem fmtSM_lit_done (t b : List Char) (hb : braceFreeB b = true) :
    fmtSM t b .lit = some b := by
  have h := fmtSM_append_lit t b [] hb
  rw [List.append_nil] at h
  rw [h, show fmtSM t [] FMode.lit = some [] from rfl]
  simp

/-- Claim C7 is false on the code for templates that use brace escapes:
`"\x7b\x7btext\x7d\x7d"` contains the literal placeholder token `{text}`, yet
`str.format` renders the doubled braces as escapes and produces
`"{text}"`, not the template with the text substituted at the placeholder
(which would be `"{X}"` for text `"X"`). -/
theorem c7_counterexample :
    _render_custom_prompt "\x7b\x7btext\x7d\x7d" "X" = some "{text}" ∧
      hasSubstr "{text}" "\x7b\x7btext\x7d\x7d" = true ∧
      ("{text}" : String) ≠ "{X}" := ⟨rfl, rfl, by decide⟩

/-- Claim C7 as amended: when the template contains `{text}`, the built
prompt is the template rendered by Python `str.format` with `text` bound
to the truncated text — which equals plain substitution whenever the
template's only braces are the placeholder itself (first conjunct) —
and otherwise the prompt is the rstripped template followed by the
triple-quoted text block, with the claim's concrete example holding
verbatim (third conjunct). -/
theorem c7_amended_custom_prompt (a b : List Char) (template text : String)
    (ha : braceFreeB a = true) (hb : braceFreeB b = true)
    (hnot : hasSubstr "{text}" template = false) :
    _render_custom_prompt (String.mk (a ++ "{text}".data ++ b)) text =
        some (String.mk (a ++ text.data ++ b)) ∧
      _render_custom_prompt template text =
        some (pyRstrip template ++ "\n\nText:\n\"\"\"\n" ++ text ++ "\n\"\"\"") ∧
      _render_custom_prompt "Analyze this:" "hello world" =
        some "Analyze this:\n\nText:\n\"\"\"\nhello world\n\"\"\"" := by
  refine ⟨?_, ?_, rfl⟩
  · have hin : hasSubstr "{text}" (String.mk (a ++ "{text}".data ++ b)) = true := by
      show isInfB "{text}".data (a ++ "{text}".data ++ b) = true
      rw [List.append_assoc]
      exact isInfB_append_left _ _ _ (isInfB_at _ _)
    unfold _render_custom_prompt
    rw [if_pos hin]
    show (fmtSM text.data (a ++ "{text}".data ++ b) .lit).map String.mk =
      some (String.mk (a ++ text.data ++ b))
    rw [List.append_assoc, fmtSM_append_lit _ _ _ ha]
    rw [show ("{text}".data ++ b : List Char) = '{' :: 't' :: 'e' :: 'x' :: 't' :: '}' :: b
      from rfl]
    rw [fmtSM_placeholder, fmtSM_lit_done _ _ hb]
    simp [List.append_assoc]
  · unfold _render_custom_prompt
    rw [if_neg (by rw [hnot]; exact Bool.false_ne_true)]

/-- Witness for the amended claim C7 at concrete inputs. -/
theorem c7_witness :
    _render_custom_prompt (String.mk ("Rate: ".data ++ "{text}".data ++ " end".data)) "T" =
        some (String.mk ("Rate: ".data ++ "T".data ++ " end".data)) ∧
      _render_custom_prompt "Analyze this:" "hello world" =
        some "Analyze this:\n\nText:\n\"\"\"\nhello world\n\"\"\"" := by
  have h := c7_amended_custom_prompt "Rate: ".data " end".data "Analyze this:" "T"
    (by decide) (by decide) (by decide)
  exact ⟨h.1, h.2.2⟩

/-- Claim C9 is false on the code: a batch `.txt` file whose contents
look like HTML is run through the full extraction heuristic, not forced
to plain text — the metadata reports `source = html`, `extracted = true`,
and the prompt is built from the HTML-extracted text (here the
collaborator extraction returns `"hi"`), not from the raw file
contents. -/
theorem c9_counterexample :
    prepare_bias_input (fun _ => "") (fun _ => "hi") "<p>hi</p>" 10 none =
      some (defaultPrompt "hi", ⟨.html, true, none, 1, 1, 0⟩) := rfl

/-- Claim C9 as amended: the batch pipeline passes each file's raw
contents through the same extraction heuristic as interactive input —
HTML-looking contents are HTML-parsed (`source = html`,
`extracted = true`, prompt built from the extracted text), URL-looking
contents are fetched, and only other contents are treated as plain text
(`source = text`, `extracted = false`); the per-file payload always
records the raw file contents under `"text"`. -/
theorem c9_amended_batch_extraction (fetch get_text : String → String)
    (typeErrMsg : JVal → String) (raw : String) (mw : ℤ)
    (outcome : RunOutcome) (logOut : LogOutcome) :
    (pyStrip raw ≠ "" → _is_probable_url (pyStrip raw) = false →
      (containsChar (pyStrip raw) '<' ∧ containsChar (pyStrip raw) '>') →
      extract_text_from_input fetch get_text raw =
        (get_text (pyStrip raw), ⟨.html, true, none⟩)) ∧
      (pyStrip raw ≠ "" → _is_probable_url (pyStrip raw) = false →
        ¬(containsChar (pyStrip raw) '<' ∧ containsChar (pyStrip raw) '>') →
        extract_text_from_input fetch get_text raw = (pyStrip raw, ⟨.text, false, none⟩)) ∧
      (pyStrip raw ≠ "" → _is_probable_url (pyStrip raw) = true →
        extract_text_from_input fetch get_text raw =
          (get_text (fetch (pyStrip raw)), ⟨.url, true, some (pyStrip raw)⟩)) ∧
      (pyStrip raw ≠ "" → _is_probable_url (pyStrip raw) = false →
        (containsChar (pyStrip raw) '<' ∧ containsChar (pyStrip raw) '>') →
        (prepare_bias_input fetch get_text raw mw none).map Prod.fst =
          some (defaultPrompt (truncate_words (get_text (pyStrip raw)) mw))) ∧
      (process_text_file fetch get_text typeErrMsg raw mw none outcome logOut).map
          (fun pd => dget pd "text") = some (some (.str raw)) := by
  refine ⟨?_, ?_, ?_, ?_, ?_⟩
  · intro h0 h1 h2
    unfold extract_text_from_input
    dsimp only
    rw [if_neg h0, if_neg (by rw [h1]; exact Bool.false_ne_true), if_pos h2]
  · intro h0 h1 h2
    unfold extract_text_from_input
    dsimp only
    rw [if_neg h0, if_neg (by rw [h1]; exact Bool.false_ne_true), if_neg h2]
  · intro h0 h1
    unfold extract_text_from_input
    dsimp only
    rw [if_neg h0, if_pos h1]
  · intro h0 h1 h2
    have hx : extract_text_from_input fetch get_text raw =
        (get_text (pyStrip raw), ⟨.html, true, none⟩) := by
      unfold extract_text_from_input
      dsimp only
      rw [if_neg h0, if_neg (by rw [h1]; exact Bool.false_ne_true), if_pos h2]
    unfold prepare_bias_input
    rw [hx]
    rfl
  · rfl

/-- Witness for the amended claim C9 at concrete inputs. -/
theorem c9_witness :
    extract_text_from_input (fun _ => "F") (fun _ => "E") "<b>x</b>" =
        ("E", ⟨.html, true, none⟩) ∧
      extract_text_from_input (fun _ => "F") (fun _ => "E") "plain" =
        ("plain", ⟨.text, false, none⟩) ∧
      extract_text_from_input (fun _ => "F") (fun _ => "E") "http://e.com/p" =
        ("E", ⟨.url, true, some "http://e.com/p"⟩) ∧
      (prepare_bias_input (fun _ => "F") (fun _ => "E") "<b>x</b>" 5 none).map Prod.fst =
        some (defaultPrompt (truncate_words "E" 5)) := by
  have hA := c9_amended_batch_extraction (fun _ => "F") (fun _ => "E") (fun _ => "")
    "<b>x</b>" 5 .timedOut .ok
  have hB := c9_amended_batch_extraction (fun _ => "F") (fun _ => "E") (fun _ => "")
    "plain" 5 .timedOut .ok
  have hC := c9_amended_batch_extraction (fun _ => "F") (fun _ => "E") (fun _ => "")
    "http://e.com/p" 5 .timedOut .ok
  exact ⟨hA.1 (by decide) (by decide) (by decide),
    hB.2.1 (by decide) (by decide) (by decide),
    hC.2.2.1 (by decide) (by decide),
    hA.2.2.2.1 (by decide) (by decide) (by decide)⟩

/-- Claim C8 (a code bug): when the model completes and a JSON object is
recovered but the run-log write raises, `analyze_with_model` discards the
parsed result and returns an `error:` sentinel — the log write sits
inside the same `try` block as the subprocess call, so its failure is
caught by the generic handler and replaces the analysis outcome. The
first conjunct shows a JSON object was recovered from this output; the
second shows what the function returns at the failing input. -/
theorem c8_log_failure_replaces_result :
    extract_json_payload (pyStrip "\x7b\"bias\": 0\x7d") = some (.obj [("bias", .num 0)]) ∧
      analyze_with_model (fun _ => "") (.completed "\x7b\"bias\": 0\x7d") (.raised "disk full") =
        [("bias", .str "error: disk full")] := ⟨rfl, rfl⟩
example : pyFloat? "-2e1" = some (-20) := by decide
example : pyFloat? "gibberish" = none := by decide
example : pyFloat? " left " = none := by decide
example : parse_bias_score (.str "LEFT") = some (-1) := by decide
example : parse_bias_score (.str " left ") = some (-1) := by decide
example : parse_bias_score (.num (mkRat 5 2)) = some 1 := by decide
example : parse_bias_score (.str "gibberish") = none := by decide
example : parse_bias_score (.str "0.25") = some (mkRat 1 4) := by decide

end PMB
